import Mathlib

/-!
# Verification of the CPU-topology reconciliation core of `bender-cpuinfo.py`

A shallow embedding of the CPU-range codec (`cpu_sorted` / `convert_to_ranges`),
the per-CPU attribute table (`CpuInfo`), the registry operations
(`get_all_cpus`, `get_cpu_by_id`, `update_cpus`, `update_attribute`,
`check_free_bender_cpu`), the per-instance configuration extractor
(`get_cpu_info_bender`) and the isolation-consistency check
(`check_isolation_parameters`), together with theorems settling the frozen
claims about them.

Modelling conventions:
* Python strings are `List Char`; `str.split(sep)` for a one-character
  separator is `splitOnChar`, `sep.join` is `joinSep`,
  `str.replace("\n", "")` is `List.filter (· ≠ '\n')`.
* Python `int(...)` on the tokens this program feeds it (digit strings,
  optionally preceded by a single `+` sign; surrounding whitespace,
  underscores and a leading `-` never occur at these call sites because the
  tokens come from splitting on `,` and `-`) is `pyNat?`; `none` models the
  `ValueError` the call raises on any other token.
* CPU ids are `Nat`: every integer this code builds is parsed from a
  digit-only (or `+`-prefixed) token, hence non-negative.
* A Python function that can raise an uncaught exception is modelled as
  returning `Option`, `none` standing for the raised exception.
-/

/-! ### Definitions -/

/-- `'0' ≤ c ≤ '9'`, the decimal digit characters. -/
def isDigitChar (c : Char) : Bool :=
  decide ('0' ≤ c) && decide (c ≤ '9')

/-- The decimal digit character for `d < 10` (`'?'` otherwise). -/
def digitChar : Nat → Char
  | 0 => '0' | 1 => '1' | 2 => '2' | 3 => '3' | 4 => '4'
  | 5 => '5' | 6 => '6' | 7 => '7' | 8 => '8' | 9 => '9'
  | _ => '?'

/-- Value of a digit-only character list, most significant digit first. -/
def parseDigits (cs : List Char) : Nat :=
  cs.foldl (fun a c => a * 10 + (c.toNat - 48)) 0

/-- Little-endian decimal digits of `n`, with explicit fuel so that the
definition is structural (kernel-computable); `fuel ≥ n` is always enough. -/
def digitsFuel : Nat → Nat → List Nat
  | 0, _ => []
  | fuel + 1, n => if n = 0 then [] else n % 10 :: digitsFuel fuel (n / 10)

/-- Decimal rendering of a natural number, as Python `str(n)` produces for a
non-negative `int`. -/
def renderNat (n : Nat) : List Char :=
  if n = 0 then ['0'] else ((digitsFuel n n).map digitChar).reverse

/-- Python `int(token)` on the tokens reaching it in this program: an optional
leading `+` followed by a non-empty run of decimal digits; `none` models the
`ValueError` raised on anything else (in particular on the empty token). -/
def pyNat? (s : List Char) : Option Nat :=
  let t := if s.head? = some '+' then s.tail else s
  if t ≠ [] ∧ t.all isDigitChar then some (parseDigits t) else none

/-- Python `str.split(sep)` for a single-character separator: always returns
at least one (possibly empty) part; `"".split(sep) == [""]`. -/
def splitOnChar (sep : Char) : List Char → List (List Char)
  | [] => [[]]
  | c :: rest =>
    let r := splitOnChar sep rest
    if c = sep then [] :: r
    else
      match r with
      | [] => [[c]]
      | t :: ts => (c :: t) :: ts

/-- Python `sep.join(parts)` for a single-character separator. -/
def joinSep (sep : Char) : List (List Char) → List Char
  | [] => []
  | [x] => x
  | x :: y :: rest => x ++ sep :: joinSep sep (y :: rest)

/-- Python `range(s, e + 1)` as a list. -/
def natRangeIncl (s e : Nat) : List Nat :=
  List.range' s (e + 1 - s)

/-- Loop body of `cpu_sorted` (src/bender-cpuinfo.py:180-194): walks the
comma-separated tokens accumulating `res`; a token containing `-` is split on
`-` and must unpack to exactly two `int(...)`-parsable parts (otherwise the
`ValueError` from `int` or from unpacking propagates, modelled by `none`);
any other token must itself be `int(...)`-parsable. -/
def cpuSortedGo : List (List Char) → List Nat → Option (List Nat)
  | [], res => some res
  | tok :: rest, res =>
    if '-' ∈ tok then
      match splitOnChar '-' tok with
      | [a, b] =>
        match pyNat? a, pyNat? b with
        | some s, some e => cpuSortedGo rest (res ++ natRangeIncl s e)
        | _, _ => none
      | _ => none
    else
      match pyNat? tok with
      | some n => cpuSortedGo rest (res ++ [n])
      | none => none

/-- `cpu_sorted` (src/bender-cpuinfo.py:180-194): decodes a CPU-range string
such as `"0,1,2-5,111"` into the list `[0, 1, 2, 3, 4, 5, 111]`, first
deleting every newline; `none` models an uncaught `ValueError`. -/
def cpu_sorted (data_str : List Char) : Option (List Nat) :=
  cpuSortedGo (splitOnChar ',' (data_str.filter (fun c => c ≠ '\n'))) []

/-- Inner loop of `convert_to_ranges` (src/bender-cpuinfo.py:159-177):
`start` is the opening of the current run, `prev` the previous element
(`numbers[i - 1]`); a break (`numbers[i] != numbers[i - 1] + 1`) closes the
pending `(start, prev)` pair, and the final pair is closed at the end. -/
def buildRanges (start prev : Nat) : List Nat → List (Nat × Nat)
  | [] => [(start, prev)]
  | n :: rest =>
    if n ≠ prev + 1 then (start, prev) :: buildRanges n n rest
    else buildRanges start n rest

/-- Rendering of one `(start, end)` pair of `convert_to_ranges`:
`f"{start}-{end}"` when they differ, `str(start)` otherwise. -/
def renderRange (p : Nat × Nat) : List Char :=
  if p.1 ≠ p.2 then renderNat p.1 ++ '-' :: renderNat p.2 else renderNat p.1

/-- `convert_to_ranges` (src/bender-cpuinfo.py:159-177): encodes a list of CPU
ids as the comma-separated range string, an empty list encoding to `""`. -/
def convert_to_ranges (numbers : List Nat) : List Char :=
  match numbers with
  | [] => []
  | n :: rest => joinSep ',' ((buildRanges n n rest).map renderRange)

/-- Concatenated expansion of a list of inclusive ranges. -/
def rangesFlatten : List (Nat × Nat) → List Nat
  | [] => []
  | p :: rest => natRangeIncl p.1 p.2 ++ rangesFlatten rest

/-- A token in the claim's sense: either a single (non-negative) integer
literal, or two integer literals joined by one hyphen. Stated from the
claim's words, to be compared with the branchy implementation. -/
def tokenWellFormed (t : List Char) : Prop :=
  (pyNat? t).isSome = true ∨
    ∃ a b, t = a ++ '-' :: b ∧ (pyNat? a).isSome = true ∧ (pyNat? b).isSome = true

/-- A Python attribute value as stored on a `CpuInfo`: the `cpu_id` int, the
`isolated` bool, or a role list of instance/interface names. -/
inductive AttrVal where
  | vInt : Nat → AttrVal
  | vBool : Bool → AttrVal
  | vList : List String → AttrVal
deriving DecidableEq

/-- Python truthiness of an attribute value (`if v:`). -/
def pyTruthy : AttrVal → Bool
  | .vInt n => n != 0
  | .vBool b => b
  | .vList l => !l.isEmpty

/-- Lookup in an association list, as Python attribute/dict access
(`getattr(obj, k)` / `d.get(k)`); keys are unique by construction. -/
def alistGet {α : Type} : List (String × α) → String → Option α
  | [], _ => none
  | (k, v) :: rest, key => if k = key then some v else alistGet rest key

/-- Update-or-append in an association list, as Python `setattr` / dict
assignment: an existing key is overwritten in place, a new key appended. -/
def alistSet {α : Type} : List (String × α) → String → α → List (String × α)
  | [], key, v => [(key, v)]
  | (k, w) :: rest, key, v =>
    if k = key then (key, v) :: rest else (k, w) :: alistSet rest key v

/-- A `CpuInfo` object, as its ordered `__dict__`. -/
abbrev CpuInfo := List (String × AttrVal)

/-- `CpuInfo.__init__` (src/bender-cpuinfo.py:29-53): `cpu_id`, `isolated`
and the fixed role attributes, all role lists empty (the duplicated
`AllRobotsThCPU` assignment leaves a single dict entry). -/
def CpuInfo.init (id_cpu : Nat) : CpuInfo :=
  [("cpu_id", .vInt id_cpu), ("isolated", .vBool false), ("net_cpu", .vList []),
   ("TrashCPU", .vList []), ("AllRobotsThCPU", .vList []),
   ("RemoteFormulaCPU", .vList []), ("GatewaysDefault", .vList []),
   ("RobotsDefault", .vList []), ("RobotsDefault2", .vList []),
   ("Formula", .vList []), ("FormulaListDefault", .vList []),
   ("UdpSendCores", .vList []), ("UdpReceiveCores", .vList []),
   ("ClickHouseCores", .vList []), ("Kafka", .vList []),
   ("GlassNode", .vList []), ("DumperCPU", .vList []),
   ("Isolated", .vList []), ("ServicesCPU", .vList []),
   ("GatewaysOTC", .vList []), ("RobotsNode1", .vList []),
   ("RobotsNode2", .vList [])]

/-- Python `getattr(self, name)`; `none` models the `AttributeError` raised
for a name that is not an attribute. -/
def pyGetattr (c : CpuInfo) (name : String) : Option AttrVal :=
  alistGet c name

/-- Python `setattr(self, name, value)`. -/
def pySetattr (c : CpuInfo) (name : String) (v : AttrVal) : CpuInfo :=
  alistSet c name v

/-- `CpuInfo.update_attribute` (src/bender-cpuinfo.py:63-72): appends
`attr_value` to the named role list (creating a fresh one-element list when
the current value is falsy); raises — modelled by `none` — for the reserved
names `cpu_id` / `isolated` and, via `getattr`, for unknown attribute names
(a truthy non-list value would also raise on `.append`, which cannot occur
on a reachable object). -/
def update_attribute (c : CpuInfo) (attr_name attr_value : String) : Option CpuInfo :=
  if attr_name ≠ "cpu_id" ∧ attr_name ≠ "isolated" then
    match pyGetattr c attr_name with
    | none => none
    | some v =>
      if pyTruthy v then
        match v with
        | .vList l => some (pySetattr c attr_name (.vList (l ++ [attr_value])))
        | _ => none
      else some (pySetattr c attr_name (.vList [attr_value]))
  else none

/-- `CpuInfo.cpu_usage` (src/bender-cpuinfo.py:55-58): every attribute name
except the reserved `cpu_id` / `isolated`. -/
def cpu_usage (c : CpuInfo) : List String :=
  (c.filter fun pv => pv.1 != "cpu_id" && pv.1 != "isolated").map Prod.fst

/-- `CpuInfo.check_free_bender_cpu` (src/bender-cpuinfo.py:97-101): `False`
as soon as some attribute outside `isolated` / `cpu_id` / `net_cpu` is
truthy, `True` otherwise.  Note the `isolated` flag is only excluded from
the scan, never required to be set. -/
def check_free_bender_cpu (c : CpuInfo) : Bool :=
  c.all fun pv =>
    !(pyTruthy pv.2 && !(pv.1 == "isolated" || pv.1 == "cpu_id" || pv.1 == "net_cpu"))

/-- `get_cpu_by_id` (src/bender-cpuinfo.py:370-373): first registry entry
with the given `cpu_id`, `none` when there is none.  The registry (the
module-level `CPUS` list) is passed explicitly. -/
def get_cpu_by_id (cpus : List CpuInfo) (cid : Nat) : Option CpuInfo :=
  cpus.find? fun c => decide (pyGetattr c "cpu_id" = some (.vInt cid))

/-- The error string `f'{upd_param} cpu {core} doesnt exist'` of
`update_cpus`, for a token `core`. -/
def errMsg (upd_param : String) (core : List Char) : String :=
  upd_param ++ " cpu " ++ String.mk core ++ " doesnt exist"

/-- In-place mutation of the first registry entry with the given id, as the
Python `cpu_for_update.update_attribute(...)` call mutates the object
returned by `get_cpu_by_id`; `none` models a raised exception. -/
def updateFirstCpu (upd_param upd_instance : String) :
    List CpuInfo → Nat → Option (List CpuInfo)
  | [], _ => none
  | c :: rest, cid =>
    if pyGetattr c "cpu_id" = some (.vInt cid) then
      (update_attribute c upd_param upd_instance).map (· :: rest)
    else
      (updateFirstCpu upd_param upd_instance rest cid).map (c :: ·)

/-- Loop of `update_cpus` (src/bender-cpuinfo.py:308-316): `int(core)` may
raise (`none`); an id with no registry entry appends one error string and
continues; a found entry gets `upd_instance` appended to its `upd_param`
role list (any exception from `update_attribute` propagates). -/
def update_cpusGo (upd_param upd_instance : String) :
    List (List Char) → List CpuInfo → List String → Option (List CpuInfo × List String)
  | [], cpus, errs => some (cpus, errs)
  | core :: rest, cpus, errs =>
    match pyNat? core with
    | none => none
    | some cid =>
      match get_cpu_by_id cpus cid with
      | none => update_cpusGo upd_param upd_instance rest cpus (errs ++ [errMsg upd_param core])
      | some _ =>
        match updateFirstCpu upd_param upd_instance cpus cid with
        | none => none
        | some cpus1 => update_cpusGo upd_param upd_instance rest cpus1 errs

/-- `update_cpus` (src/bender-cpuinfo.py:308-316), with the registry passed
and returned explicitly in place of the mutated global `CPUS`. -/
def update_cpus (cpus : List CpuInfo) (cores_list : List (List Char))
    (upd_param upd_instance : String) : Option (List CpuInfo × List String) :=
  update_cpusGo upd_param upd_instance cores_list cpus []

/-- `get_all_cpus` (src/bender-cpuinfo.py:296-305): one `CpuInfo` per entry
of the decoded online-CPU range string, in order and without any
duplicate-id check. -/
def get_all_cpus (data : List Char) : Option (List CpuInfo) :=
  (cpu_sorted data).map (List.map CpuInfo.init)

/-- The list currently stored under role `p` (`[]` when the attribute is
absent or not a list). -/
def roleListOf (c : CpuInfo) (p : String) : List String :=
  match pyGetattr c p with
  | some (.vList l) => l
  | _ => []

/-- Does token `t` parse to the id of entry `c`? -/
def tokMatchesCpu (c : CpuInfo) (t : List Char) : Bool :=
  match pyNat? t with
  | some n => decide (pyGetattr c "cpu_id" = some (.vInt n))
  | none => false

/-- Does token `t` parse to an id with no entry in `cpus`? -/
def tokAbsent (cpus : List CpuInfo) (t : List Char) : Bool :=
  match pyNat? t with
  | some n => (get_cpu_by_id cpus n).isNone
  | none => false

/-- Append `v` once to role `p` of `c` when `c` has id `n` (the effect of one
present-id iteration of `update_cpus` on one registry entry). -/
def roleAppendIfId (p v : String) (n : Nat) (c : CpuInfo) : CpuInfo :=
  if pyGetattr c "cpu_id" = some (.vInt n) then
    pySetattr c p (.vList (roleListOf c p ++ [v]))
  else c

/-- A value stored in a parsed boot-parameter dictionary
(`refactor_parameters`, src/bender-cpuinfo.py:197-214): a plain `key=value`
string, the `True` of a bare flag or `cgroup_disable_*` key, or the decoded
`isolcpus` list.  An `isolcpus=` with empty value stores `None`, which
`.get` reports identically to an absent key, so it is modelled as the key
being absent. -/
inductive PVal where
  | pstr : String → PVal
  | ptrue : PVal
  | pcpus : List Nat → PVal
deriving DecidableEq

/-- Python `d.get(key)` on a parameter dictionary. -/
def pyGet (d : List (String × PVal)) (key : String) : Option PVal :=
  alistGet d key

/-- Python `==` between the `Optional[list]` result of
`get_system_isolated_cpus` and a `.get('isolcpus')` value: `None == None`
is true, two lists compare elementwise, every other pairing is unequal. -/
def isolEq : Option (List Nat) → Option PVal → Bool
  | none, none => true
  | some l, some (.pcpus m) => l == m
  | _, _ => false

/-- `REQ_PARAM_FOR_GR["default"]` (src/bender-cpuinfo.py:788-797). -/
def REQ_PARAM_DEFAULT : List (String × PVal) :=
  [("intel_idle.max_cstate", .pstr "0"), ("processor.max_cstate", .pstr "0"),
   ("idle", .pstr "poll"), ("mitigations", .pstr "off"),
   ("cgroup_disable_cpu", .ptrue), ("cgroup_disable_memory", .ptrue),
   ("nosmt", .ptrue)]

/-- `check_parameters` (src/bender-cpuinfo.py:260-271): the required keys
whose required value differs from the actual parameter value, listed in one
`Invalid parameters` message; `none` when all match.  The required
dictionary falls back to `REQ_PARAM_FOR_GR["default"]` when `None` or
empty (`req_param_dict or ...`). -/
def check_parameters (param_dict : List (String × PVal))
    (req_param_dict : Option (List (String × PVal))) : Option String :=
  let req := match req_param_dict with
    | some d => if d.isEmpty then REQ_PARAM_DEFAULT else d
    | none => REQ_PARAM_DEFAULT
  let err_parameters :=
    (req.filter fun kv => !(pyGet param_dict kv.1 == some kv.2)).map Prod.fst
  if err_parameters.isEmpty then none
  else some ("Invalid parameters: " ++ String.intercalate ", " err_parameters)

/-- One description appended to `err_check` by `check_isolation_parameters`
(src/bender-cpuinfo.py:483-527); each constructor is one append site,
carrying the dynamic parts of its message (rendered by
`VerdictDesc.render`). -/
inductive VerdictDesc where
  | invalidCpus : List String → VerdictDesc
  | isolNotEqGrub : VerdictDesc
  | isolNotEqCmdline : VerdictDesc
  | noIsolatedCpus : VerdictDesc
  | htCountMismatch : VerdictDesc
  | htActive : VerdictDesc
  | cmdlineParams : String → VerdictDesc
  | grubParams : String → VerdictDesc
deriving DecidableEq

/-- The exact message text of each description (`; ` separators are added by
the accumulation into `err_check`). -/
def VerdictDesc.render : VerdictDesc → String
  | .invalidCpus cpus => "Invalid cpus: " ++ String.intercalate " " cpus
  | .isolNotEqGrub =>
      "\x27Isolated cpu /sys/devices/system/cpu/isolated\x27 not eq \x27/etc/default/grub\x27"
  | .isolNotEqCmdline =>
      "\x27Isolated cpu /sys/devices/system/cpu/isolated\x27 not eq \x27/proc/cmdline\x27"
  | .noIsolatedCpus => "The server does not have isolated cpus"
  | .htCountMismatch =>
      "Hyperthreading enable, the logical cpus number is not equal to the physical cpus number"
  | .htActive => "Hyperthreading enable, look \x27/sys/devices/system/cpu/smt/active\x27"
  | .cmdlineParams msg => "Cmdline " ++ msg
  | .grubParams msg => "Grub " ++ msg

/-- The collaborator outputs `check_isolation_parameters` consumes: the
parsed bootloader (`/etc/default/grub`) and live (`/proc/cmdline`)
dictionaries, the kernel-reported isolated list, the instance-info presence
flag and per-instance error list from `get_info_about_cpus`, the
logical/physical core counts, the SMT-active flag, and the host-group
required-parameter dictionary `REQ_PARAM_FOR_GR.get(...)`. -/
structure SysFacts where
  grub : List (String × PVal)
  cmdline : List (String × PVal)
  system : Option (List Nat)
  instance_info_nonempty : Bool
  cpu_error : List String
  logical_cpu_count : Nat
  physical_cpu_count : Nat
  smt_active : Bool
  req_param : Option (List (String × PVal))

/-- The sequence of descriptions `check_isolation_parameters`
(src/bender-cpuinfo.py:491-519) accumulates into `err_check`, in source
order. -/
def check_isolation_parameters_descs (f : SysFacts) : List VerdictDesc :=
  (if f.instance_info_nonempty && !f.cpu_error.isEmpty then
    [.invalidCpus f.cpu_error] else []) ++
  (if !isolEq f.system (pyGet f.grub "isolcpus") then [.isolNotEqGrub] else []) ++
  (if !isolEq f.system (pyGet f.cmdline "isolcpus") then [.isolNotEqCmdline] else []) ++
  (if f.system = none ∨ f.system = some [] then [.noIsolatedCpus] else []) ++
  (if f.logical_cpu_count ≠ f.physical_cpu_count then [.htCountMismatch] else []) ++
  (if f.smt_active then [.htActive] else []) ++
  (match check_parameters f.cmdline f.req_param with
    | some msg => [.cmdlineParams msg]
    | none => []) ++
  (match check_parameters f.grub f.req_param with
    | some msg => [.grubParams msg]
    | none => [])

/-- `check_isolation_parameters` (src/bender-cpuinfo.py:520-527), non-zabbix
return: the accumulated `err_check` with the trailing `'; '` stripped and
the separators turned into newlines, i.e. the messages joined by `'\n'`;
`"OK"` when no description was appended (the zabbix variant differs only in
early returns driven by host group / running instances and an `Error: `
prefix with `'; '` separators kept). -/
def check_isolation_parameters (f : SysFacts) : String :=
  let errs := check_isolation_parameters_descs f
  if errs.isEmpty then "OK"
  else String.intercalate "\n" (errs.map VerdictDesc.render)

/-- Is a description one of the two isolated-set comparison messages? -/
def isolMismatchDesc (d : VerdictDesc) : Bool :=
  d == .isolNotEqGrub || d == .isolNotEqCmdline

/-- The number of mismatching pairs under the claim's reading: the three
isolated-CPU sets compared pairwise, one description per mismatching
pair.  Stated from the claim's words, to be compared with the
implementation. -/
def spec_pairwise_isolated_mismatch_count (a b c : Option (List Nat)) : Nat :=
  (if a ≠ b then 1 else 0) + (if a ≠ c then 1 else 0) + (if b ≠ c then 1 else 0)

/-- Facts of the claim's example: kernel `{2,3}`, bootloader `{2,3}`,
cmdline `{2,4}`, everything else healthy. -/
def c1ExampleFacts : SysFacts :=
  ⟨[("isolcpus", .pcpus [2, 3]), ("mitigations", .pstr "off")],
   [("isolcpus", .pcpus [2, 4]), ("mitigations", .pstr "off")],
   some [2, 3], false, [], 4, 4, false, some [("mitigations", .pstr "off")]⟩

/-- Facts with three pairwise-distinct isolated sets: kernel `{2,3}`,
bootloader `{2,4}`, cmdline `{2,5}`. -/
def c1PairwiseFacts : SysFacts :=
  ⟨[("isolcpus", .pcpus [2, 4]), ("mitigations", .pstr "off")],
   [("isolcpus", .pcpus [2, 5]), ("mitigations", .pstr "off")],
   some [2, 3], false, [], 4, 4, false, some [("mitigations", .pstr "off")]⟩

/-! ## The per-instance configuration extractor (`get_cpu_info_bender`)

The parsed `Runtime.xml` tree is modelled as a rose tree (children as a
mutually-inductive forest, so that all recursion stays structural). -/

mutual
inductive XmlNode where
  | node : String → List (String × String) → XmlForest → XmlNode
inductive XmlForest where
  | fnil : XmlForest
  | fcons : XmlNode → XmlForest → XmlForest
end

def XmlForest.toList : XmlForest → List XmlNode
  | .fnil => []
  | .fcons c rest => c :: rest.toList

def listToForest : List XmlNode → XmlForest
  | [] => .fnil
  | c :: rest => .fcons c (listToForest rest)

def XmlNode.tag : XmlNode → String
  | .node t _ _ => t

def XmlNode.attrs : XmlNode → List (String × String)
  | .node _ a _ => a

def XmlNode.children : XmlNode → List XmlNode
  | .node _ _ cs => cs.toList

/-- `element.get(attr)`: attribute lookup, `None` when absent. -/
def attrGet (el : XmlNode) (a : String) : Option String :=
  alistGet el.attrs a

/-- lxml `root.find(tag)` for a plain tag: the first direct child with that
tag, `None` when there is none. -/
def elemFind (n : XmlNode) (t : String) : Option XmlNode :=
  n.children.find? fun c => c.tag == t

mutual
def descendantsSelf : XmlNode → List XmlNode
  | .node t a cs => .node t a cs :: descForest cs
def descForest : XmlForest → List XmlNode
  | .fnil => []
  | .fcons c rest => descendantsSelf c ++ descForest rest
end

/-- One `child::tag` XPath step. -/
def childrenTag (t : String) (n : XmlNode) : List XmlNode :=
  n.children.filter fun c => c.tag == t

/-- lxml `root.xpath(".//s1/s2/...")`: every descendant-or-self node, a
`child::s1` step, then the remaining child steps, in document order. -/
def xpathDesc (root : XmlNode) : List String → List XmlNode
  | [] => [root]
  | s :: rest =>
    rest.foldl (fun acc seg => acc.flatMap (childrenTag seg))
      ((descendantsSelf root).flatMap (childrenTag s))

/-- One parameter/alias block of `get_cpu_info_bender`: split the element's
`Cores` attribute on `,`, run `update_cpus`, extend the accumulated error
list; `none` models the exception raised when `Cores` is absent
(`None.split(...)`) or when `update_cpus` raises. -/
def benderRunBlock (cpus : List CpuInfo) (errs : List String) (el : XmlNode)
    (pname inst : String) : Option (List CpuInfo × List String) :=
  match attrGet el "Cores" with
  | none => none
  | some cs =>
    match update_cpus cpus (splitOnChar ',' cs.toList) pname inst with
    | none => none
    | some (cpus1, es) => some (cpus1, errs ++ es)

/-- The four `root.find`-based parameters (src/bender-cpuinfo.py:329-334). -/
def benderFixedParams : List String :=
  ["AllRobotsThCPU", "TrashCPU", "RemoteFormulaCPU", "DumperCPU"]

/-- The `parameters_list` loop (src/bender-cpuinfo.py:335-339): an absent
element is skipped; a found element — the FIRST matching child when several
match — is processed. -/
def benderFindLoop (root : XmlNode) (inst : String) :
    List String → List CpuInfo → List String → Option (List CpuInfo × List String)
  | [], cpus, errs => some (cpus, errs)
  | p :: rest, cpus, errs =>
    match elemFind root p with
    | none => benderFindLoop root inst rest cpus errs
    | some el =>
      match benderRunBlock cpus errs el p inst with
      | none => none
      | some (cpus1, errs1) => benderFindLoop root inst rest cpus1 errs1

/-- The `CPUAlias` loop (src/bender-cpuinfo.py:342-344): every matching
child is processed, its `Name` attribute becoming the role name.  A missing
`Name` is passed as Python `None`, which renders as `None` in error
strings and raises inside `update_attribute` exactly as the attribute name
`"None"` does, so it is modelled by that string. -/
def benderAliasLoop (inst : String) :
    List XmlNode → List CpuInfo → List String → Option (List CpuInfo × List String)
  | [], cpus, errs => some (cpus, errs)
  | el :: rest, cpus, errs =>
    match benderRunBlock cpus errs el ((attrGet el "Name").getD "None") inst with
    | none => none
    | some (cpus1, errs1) => benderAliasLoop inst rest cpus1 errs1

/-- The `len(...) == 1`-guarded XPath lookups: the two `Udp` blocks
(src/bender-cpuinfo.py:347-352) and the three special parameters
(src/bender-cpuinfo.py:355-364), in source order. -/
def benderGuardedParams : List (List String × String) :=
  [(["Udp", "Send", "CPU"], "UdpSendCores"),
   (["Udp", "Receive", "CPU"], "UdpReceiveCores"),
   (["TSDatabases", "TSDB", "Threads"], "ClickHouseCores"),
   (["DealsStream", "Cpu"], "Kafka"),
   (["ServicesCPU"], "ServicesCPU")]

/-- The guarded loops: a block runs only when its XPath matches exactly one
node; zero matches and two-or-more matches are both skipped silently. -/
def benderGuardedLoop (root : XmlNode) (inst : String) :
    List (List String × String) → List CpuInfo → List String →
      Option (List CpuInfo × List String)
  | [], cpus, errs => some (cpus, errs)
  | (segs, pname) :: rest, cpus, errs =>
    match xpathDesc root segs with
    | [el] =>
      match benderRunBlock cpus errs el pname inst with
      | none => none
      | some (cpus1, errs1) => benderGuardedLoop root inst rest cpus1 errs1
    | _ => benderGuardedLoop root inst rest cpus errs

/-- `get_cpu_info_bender` (src/bender-cpuinfo.py:319-367) with the parsed
tree and the registry passed explicitly: the four fixed `find` parameters,
then every `CPUAlias`, then the guarded XPath parameters; returns the
updated registry with the accumulated `err_cpu` list (rendered by the
source as `f'{instance}: {err_cpu}'` when nonempty, `None` otherwise). -/
def get_cpu_info_bender (cpus : List CpuInfo) (root : XmlNode) (inst : String) :
    Option (List CpuInfo × List String) :=
  match benderFindLoop root inst benderFixedParams cpus [] with
  | none => none
  | some (c1, e1) =>
    match benderAliasLoop inst (root.children.filter fun c => c.tag == "CPUAlias") c1 e1 with
    | none => none
    | some (c2, e2) => benderGuardedLoop root inst benderGuardedParams c2 e2

/-- A configuration whose `TrashCPU` path (one of the `find`-based fixed
parameters) matches two elements with different `Cores`. -/
def c7FindTree : XmlNode :=
  .node "BenderServer" [] (listToForest
    [.node "TrashCPU" [("Cores", "0")] .fnil,
     .node "TrashCPU" [("Cores", "1")] .fnil])

/-- A configuration with two `ServicesCPU` elements (a guarded role). -/
def c7GuardedTree : XmlNode :=
  .node "BenderServer" [] (listToForest
    [.node "ServicesCPU" [("Cores", "0")] .fnil,
     .node "ServicesCPU" [("Cores", "0")] .fnil])

/-! ### Theorems -/

theorem digitsFuel_lt_ten : ∀ (fuel n d : Nat), d ∈ digitsFuel fuel n → d < 10 := by
  intro fuel
  induction fuel with
  | zero => intro n d h; simp [digitsFuel] at h
  | succ f ih =>
    intro n d h
    by_cases hn : n = 0
    · simp [digitsFuel, hn] at h
    · simp only [digitsFuel, if_neg hn, List.mem_cons] at h
      rcases h with h | h
      · subst h; exact Nat.mod_lt _ (by norm_num)
      · exact ih _ _ h

theorem ofDigits_digitsFuel : ∀ (fuel n : Nat), n ≤ fuel →
    Nat.ofDigits 10 (digitsFuel fuel n) = n := by
  intro fuel
  induction fuel with
  | zero =>
    intro n h
    have : n = 0 := by omega
    subst this
    simp [digitsFuel]
  | succ f ih =>
    intro n h
    by_cases hn : n = 0
    · subst hn; simp [digitsFuel]
    · have hdiv : n / 10 ≤ f := by
        have := Nat.div_lt_self (Nat.pos_of_ne_zero hn) (by norm_num : 1 < 10)
        omega
      simp only [digitsFuel, if_neg hn, Nat.ofDigits_cons, ih _ hdiv]
      omega

theorem digitChar_toNat {d : Nat} (h : d < 10) : (digitChar d).toNat - 48 = d := by
  interval_cases d <;> decide

theorem isDigitChar_digitChar {d : Nat} (h : d < 10) : isDigitChar (digitChar d) = true := by
  interval_cases d <;> decide

theorem digit_char_ne {c : Char} (h : isDigitChar c = true) :
    c ≠ '-' ∧ c ≠ ',' ∧ c ≠ '\n' ∧ c ≠ '+' := by
  refine ⟨?_, ?_, ?_, ?_⟩ <;> rintro rfl <;> exact absurd h (by decide)

theorem parse_foldl (ds : List Nat) (h : ∀ d ∈ ds, d < 10) :
    ∀ a : Nat, List.foldl (fun x c => x * 10 + (c.toNat - 48)) a ((ds.map digitChar).reverse)
      = a * 10 ^ ds.length + Nat.ofDigits 10 ds := by
  induction ds with
  | nil => intro a; simp
  | cons d t ih =>
    intro a
    have hd : d < 10 := h d (by simp)
    have ht : ∀ x ∈ t, x < 10 := fun x hx => h x (by simp [hx])
    simp only [List.map_cons, List.reverse_cons, List.foldl_append, List.foldl_cons,
      List.foldl_nil, List.length_cons, Nat.ofDigits_cons]
    rw [ih ht a, digitChar_toNat hd]
    ring

theorem renderNat_ne_nil (n : Nat) : renderNat n ≠ [] := by
  by_cases hn : n = 0
  · subst hn; simp [renderNat]
  · obtain ⟨m, rfl⟩ := Nat.exists_eq_succ_of_ne_zero hn
    simp [renderNat, digitsFuel]

theorem renderNat_all_digits {c : Char} {n : Nat} (h : c ∈ renderNat n) :
    isDigitChar c = true := by
  by_cases hn : n = 0
  · subst hn; simp [renderNat] at h; subst h; decide
  · simp only [renderNat, if_neg hn, List.mem_reverse, List.mem_map] at h
    obtain ⟨d, hd, rfl⟩ := h
    exact isDigitChar_digitChar (digitsFuel_lt_ten _ _ _ hd)

theorem parseDigits_renderNat (n : Nat) : parseDigits (renderNat n) = n := by
  by_cases hn : n = 0
  · subst hn; decide
  · have hds : ∀ d ∈ digitsFuel n n, d < 10 := fun d hd => digitsFuel_lt_ten _ _ _ hd
    simp only [renderNat, if_neg hn, parseDigits]
    rw [parse_foldl _ hds 0, ofDigits_digitsFuel n n le_rfl]
    simp

theorem pyNat?_of_digits {s : List Char} (h1 : s ≠ []) (h2 : s.all isDigitChar = true) :
    pyNat? s = some (parseDigits s) := by
  cases s with
  | nil => exact absurd rfl h1
  | cons c t =>
    have hc : isDigitChar c = true := by
      have := List.all_eq_true.mp h2 c (by simp)
      simpa using this
    have hplus : c ≠ '+' := (digit_char_ne hc).2.2.2
    simp only [pyNat?, List.head?]
    rw [if_neg (show ¬(some c = some '+') by simpa using hplus), if_pos ⟨by simp, h2⟩]

theorem pyNat?_renderNat (n : Nat) : pyNat? (renderNat n) = some n := by
  rw [pyNat?_of_digits (renderNat_ne_nil n)
    (List.all_eq_true.mpr fun c hc => renderNat_all_digits hc), parseDigits_renderNat]

theorem pyNat?_no_hyphen {s : List Char} (h : (pyNat? s).isSome = true) : '-' ∉ s := by
  intro hmem
  simp only [pyNat?] at h
  by_cases hh : s.head? = some '+'
  · rw [if_pos hh] at h
    cases s with
    | nil => simp at hh
    | cons c t =>
      have hc : c = '+' := by simpa using hh
      subst hc
      split at h
      · rename_i hcond
        rcases List.mem_cons.mp hmem with h1 | h1
        · exact absurd h1.symm (by decide)
        · have := List.all_eq_true.mp hcond.2 _ (by simpa using h1)
          exact absurd this (by decide)
      · simp at h
  · rw [if_neg hh] at h
    split at h
    · rename_i hcond
      have := List.all_eq_true.mp hcond.2 _ hmem
      exact absurd this (by decide)
    · simp at h

theorem splitOnChar_ne_nil (sep : Char) (s : List Char) : splitOnChar sep s ≠ [] := by
  cases s with
  | nil => simp [splitOnChar]
  | cons c rest =>
    simp only [splitOnChar]
    split
    · simp
    · split <;> simp

theorem mem_splitOnChar_not_sep (sep : Char) :
    ∀ (s : List Char), ∀ p ∈ splitOnChar sep s, sep ∉ p := by
  intro s
  induction s with
  | nil => intro p hp; simp [splitOnChar] at hp; subst hp; simp
  | cons c rest ih =>
    intro p hp
    simp only [splitOnChar] at hp
    by_cases hc : c = sep
    · rw [if_pos hc] at hp
      rcases List.mem_cons.mp hp with h | h
      · subst h; simp
      · exact ih p h
    · rw [if_neg hc] at hp
      rcases hr : splitOnChar sep rest with _ | ⟨t, ts⟩
      · exact absurd hr (splitOnChar_ne_nil sep rest)
      · rw [hr] at hp
        rcases List.mem_cons.mp hp with h | h
        · subst h
          intro hmem
          rcases List.mem_cons.mp hmem with h1 | h1
          · exact hc h1.symm
          · exact ih t (by simp [hr]) h1
        · exact ih p (by simp [hr, h])

theorem joinSep_cons_cons (sep c : Char) (t : List Char) (ts : List (List Char)) :
    joinSep sep ((c :: t) :: ts) = c :: joinSep sep (t :: ts) := by
  cases ts <;> simp [joinSep]

theorem joinSep_splitOnChar (sep : Char) :
    ∀ s : List Char, joinSep sep (splitOnChar sep s) = s := by
  intro s
  induction s with
  | nil => simp [splitOnChar, joinSep]
  | cons c rest ih =>
    simp only [splitOnChar]
    by_cases hc : c = sep
    · rw [if_pos hc]
      rcases hr : splitOnChar sep rest with _ | ⟨t, ts⟩
      · exact absurd hr (splitOnChar_ne_nil sep rest)
      · rw [hr] at ih
        subst hc
        simp [joinSep, ih]
    · rw [if_neg hc]
      rcases hr : splitOnChar sep rest with _ | ⟨t, ts⟩
      · exact absurd hr (splitOnChar_ne_nil sep rest)
      · rw [hr] at ih
        rw [joinSep_cons_cons, ih]

theorem splitOnChar_append_not_mem (sep : Char) :
    ∀ (a b : List Char), sep ∉ a →
      splitOnChar sep (a ++ b) = (splitOnChar sep b).modifyHead (a ++ ·) := by
  intro a
  induction a with
  | nil =>
    intro b _
    rcases hb : splitOnChar sep b with _ | ⟨t, ts⟩
    · exact absurd hb (splitOnChar_ne_nil sep b)
    · simp [hb]
  | cons c a0 ih =>
    intro b hmem
    have hc : c ≠ sep := fun h => hmem (by simp [h])
    have ha0 : sep ∉ a0 := fun h => hmem (by simp [h])
    rcases hb : splitOnChar sep b with _ | ⟨t, ts⟩
    · exact absurd hb (splitOnChar_ne_nil sep b)
    · have hrec := ih b ha0
      rw [hb] at hrec
      simp only [List.modifyHead] at hrec
      simp only [List.cons_append, splitOnChar, if_neg hc, List.append_eq, List.modifyHead]
      rw [hrec]

theorem splitOnChar_not_mem (sep : Char) (s : List Char) (h : sep ∉ s) :
    splitOnChar sep s = [s] := by
  have := splitOnChar_append_not_mem sep s [] h
  simpa [splitOnChar] using this

theorem splitOnChar_eq_pair_iff (sep : Char) (t a b : List Char) :
    splitOnChar sep t = [a, b] ↔ t = a ++ sep :: b ∧ sep ∉ a ∧ sep ∉ b := by
  constructor
  · intro h
    refine ⟨?_, ?_, ?_⟩
    · have := joinSep_splitOnChar sep t
      rw [h] at this
      simpa [joinSep] using this.symm
    · exact mem_splitOnChar_not_sep sep t a (by simp [h])
    · exact mem_splitOnChar_not_sep sep t b (by simp [h])
  · rintro ⟨rfl, ha, hb⟩
    rw [splitOnChar_append_not_mem sep a (sep :: b) ha]
    have hstep : splitOnChar sep (sep :: b) = [] :: splitOnChar sep b := by
      simp [splitOnChar]
    rw [hstep, splitOnChar_not_mem sep b hb]
    simp

theorem splitOnChar_joinSep (sep : Char) :
    ∀ ps : List (List Char), ps ≠ [] → (∀ p ∈ ps, sep ∉ p) →
      splitOnChar sep (joinSep sep ps) = ps := by
  intro ps
  induction ps with
  | nil => intro h; exact absurd rfl h
  | cons p qs ih =>
    intro _ hmem
    cases qs with
    | nil =>
      simp only [joinSep]
      exact splitOnChar_not_mem sep p (hmem p (by simp))
    | cons q rs =>
      have hp : sep ∉ p := hmem p (by simp)
      simp only [joinSep]
      rw [splitOnChar_append_not_mem sep p _ hp]
      have hstep : splitOnChar sep (sep :: joinSep sep (q :: rs)) =
          [] :: splitOnChar sep (joinSep sep (q :: rs)) := by
        simp [splitOnChar]
      rw [hstep, ih (by simp) (fun r hr => hmem r (by simp [hr]))]
      simp

theorem natRangeIncl_self (n : Nat) : natRangeIncl n n = [n] := by
  simp [natRangeIncl, List.range']

theorem natRangeIncl_snoc {s p : Nat} (h : s ≤ p + 1) :
    natRangeIncl s (p + 1) = natRangeIncl s p ++ [p + 1] := by
  unfold natRangeIncl
  have h1 : p + 1 + 1 - s = (p + 1 - s) + 1 := by omega
  rw [h1, List.range'_concat]
  have h2 : s + 1 * (p + 1 - s) = p + 1 := by omega
  rw [h2]

theorem buildRanges_ne_nil (start prev : Nat) (rest : List Nat) :
    buildRanges start prev rest ≠ [] := by
  induction rest generalizing start prev with
  | nil => simp [buildRanges]
  | cons n t ih =>
    simp only [buildRanges]
    split
    · simp
    · exact ih start n

theorem buildRanges_flatten :
    ∀ (rest : List Nat) (start prev : Nat), start ≤ prev →
      rangesFlatten (buildRanges start prev rest) = natRangeIncl start prev ++ rest := by
  intro rest
  induction rest with
  | nil => intro s p _; simp [buildRanges, rangesFlatten]
  | cons n t ih =>
    intro s p hsp
    by_cases hb : n = p + 1
    · subst hb
      simp only [buildRanges, if_neg (by omega : ¬(p + 1 ≠ p + 1))]
      rw [ih s (p + 1) (by omega), natRangeIncl_snoc (by omega)]
      simp
    · simp only [buildRanges, if_pos hb, rangesFlatten]
      rw [ih n n le_rfl, natRangeIncl_self]
      simp

theorem renderRange_chars {c : Char} {p : Nat × Nat} (h : c ∈ renderRange p) :
    c = '-' ∨ isDigitChar c = true := by
  unfold renderRange at h
  split at h
  · rcases List.mem_append.mp h with h1 | h1
    · exact Or.inr (renderNat_all_digits h1)
    · rcases List.mem_cons.mp h1 with h2 | h2
      · exact Or.inl h2
      · exact Or.inr (renderNat_all_digits h2)
  · exact Or.inr (renderNat_all_digits h)

theorem renderRange_no_comma {p : Nat × Nat} : ',' ∉ renderRange p := by
  intro h
  rcases renderRange_chars h with h1 | h1
  · exact absurd h1 (by decide)
  · exact absurd h1 (by decide)

theorem mem_joinSep {c sep : Char} :
    ∀ ps : List (List Char), c ∈ joinSep sep ps → c = sep ∨ ∃ p ∈ ps, c ∈ p := by
  intro ps
  induction ps with
  | nil => intro h; simp [joinSep] at h
  | cons p qs ih =>
    intro h
    cases qs with
    | nil => exact Or.inr ⟨p, by simp, by simpa [joinSep] using h⟩
    | cons q rs =>
      simp only [joinSep, List.mem_append, List.mem_cons] at h
      rcases h with h1 | h1 | h1
      · exact Or.inr ⟨p, by simp, h1⟩
      · exact Or.inl h1
      · rcases ih h1 with h2 | ⟨r, hr, hcr⟩
        · exact Or.inl h2
        · exact Or.inr ⟨r, by simp [hr], hcr⟩

theorem cpuSortedGo_ranges :
    ∀ (rs : List (Nat × Nat)) (res : List Nat),
      cpuSortedGo (rs.map renderRange) res = some (res ++ rangesFlatten rs) := by
  intro rs
  induction rs with
  | nil => intro res; simp [cpuSortedGo, rangesFlatten]
  | cons p t ih =>
    intro res
    obtain ⟨s, e⟩ := p
    by_cases hse : s = e
    · subst hse
      have hrr : renderRange (s, s) = renderNat s := by simp [renderRange]
      have hnm : '-' ∉ renderNat s := fun hc =>
        absurd (renderNat_all_digits hc) (by decide)
      simp only [List.map_cons, cpuSortedGo, hrr, if_neg hnm, pyNat?_renderNat]
      rw [ih (res ++ [s])]
      simp [rangesFlatten, natRangeIncl_self]
    · have hrr : renderRange (s, e) = renderNat s ++ '-' :: renderNat e := by
        simp [renderRange, hse]
      have hs : '-' ∉ renderNat s := fun hc =>
        absurd (renderNat_all_digits hc) (by decide)
      have he : '-' ∉ renderNat e := fun hc =>
        absurd (renderNat_all_digits hc) (by decide)
      have hmem : '-' ∈ renderRange (s, e) := by simp [hrr]
      have hsplit : splitOnChar '-' (renderRange (s, e)) = [renderNat s, renderNat e] :=
        (splitOnChar_eq_pair_iff '-' _ _ _).mpr ⟨hrr, hs, he⟩
      simp only [List.map_cons, cpuSortedGo, if_pos hmem, hsplit, pyNat?_renderNat]
      rw [ih (res ++ natRangeIncl s e)]
      simp [rangesFlatten]

/-- Claim C2 (counterexample): the claim asserts `decode("") == []`, but
Python's `int('')` raises `ValueError` on the single empty token that
`"".split(",")` produces, so `cpu_sorted` on the empty string fails instead
of returning the empty list. -/
theorem cpu_sorted_empty_string_counterexample :
    cpu_sorted ("".toList) = none ∧ convert_to_ranges [] = "".toList := by
  constructor <;> decide

/-- Claim C2 (amended): for every nonempty, strictly ascending (hence
duplicate-free) list `x` of CPU ids, `cpu_sorted (convert_to_ranges x) = x`;
`convert_to_ranges [] = ""`, but `cpu_sorted` applied to the empty string
raises (returns `none`) rather than producing `[]`, so the round trip holds
for every such list except the empty one. -/
theorem cpu_sorted_convert_to_ranges_roundtrip :
    (∀ x : List Nat, x ≠ [] → List.Chain' (· < ·) x →
        cpu_sorted (convert_to_ranges x) = some x) ∧
      convert_to_ranges [] = [] ∧ cpu_sorted (convert_to_ranges []) = none := by
  refine ⟨?_, by decide, by decide⟩
  intro x hne _
  cases x with
  | nil => exact absurd rfl hne
  | cons n rest =>
    have hpieces : ∀ p ∈ (buildRanges n n rest).map renderRange, ',' ∉ p := by
      intro p hp
      rcases List.mem_map.mp hp with ⟨q, _, rfl⟩
      exact renderRange_no_comma
    have hnonl : ∀ c ∈ joinSep ',' ((buildRanges n n rest).map renderRange), c ≠ '\n' := by
      intro c hc
      rcases mem_joinSep _ hc with h1 | ⟨p, hp, hcp⟩
      · subst h1; decide
      · rcases List.mem_map.mp hp with ⟨q, _, rfl⟩
        rcases renderRange_chars hcp with h2 | h2
        · subst h2; decide
        · exact (digit_char_ne h2).2.2.1
    unfold cpu_sorted convert_to_ranges
    rw [List.filter_eq_self.mpr (fun c hc => by simpa using hnonl c hc)]
    rw [splitOnChar_joinSep ',' _
      (by
        intro h
        exact buildRanges_ne_nil n n rest (List.map_eq_nil_iff.mp h))
      hpieces]
    rw [cpuSortedGo_ranges]
    rw [buildRanges_flatten rest n n le_rfl, natRangeIncl_self]
    simp

/-- Claim C2 (witness): the round-trip theorem applied to the concrete
ascending list `[2, 3]`. -/
theorem cpu_sorted_convert_to_ranges_roundtrip_witness :
    (([2, 3] : List Nat) ≠ [] ∧ List.Chain' (· < ·) [2, 3]) ∧
      cpu_sorted (convert_to_ranges [2, 3]) = some [2, 3] :=
  ⟨⟨by decide, by norm_num [List.chain'_cons]⟩,
    cpu_sorted_convert_to_ranges_roundtrip.1 [2, 3] (by decide)
      (by norm_num [List.chain'_cons])⟩

/-- Claim C4 (counterexample): the claim asserts
`encode([0,1,2,3,4,5,111]) == "0,1,2-5,111"`, but `convert_to_ranges`
collapses the whole consecutive run `0..5`, returning `"0-5,111"` (the
function's own docstring example disagrees with its loop, which closes a
range only at a gap `numbers[i] != numbers[i-1] + 1`). -/
theorem convert_to_ranges_example_counterexample :
    convert_to_ranges [0, 1, 2, 3, 4, 5, 111] = "0-5,111".toList ∧
      "0-5,111".toList ≠ "0,1,2-5,111".toList := by
  constructor <;> decide

/-- Claim C4 (amended): `decode("0,1,2-5,111") = [0,1,2,3,4,5,111]` holds as
claimed, and `encode([0,1,2,3,4,5,111]) = "0-5,111"` — the minimal
comma-separated representation collapsing every run of two or more
consecutive integers (the run `0..5` is collapsed whole, not split as
`0,1,2-5`). -/
theorem cpu_sorted_convert_concrete :
    cpu_sorted ("0,1,2-5,111".toList) = some [0, 1, 2, 3, 4, 5, 111] ∧
      convert_to_ranges [0, 1, 2, 3, 4, 5, 111] = "0-5,111".toList := by
  constructor <;> decide

theorem tokenWellFormed_hyphen_elim {t : List Char} (hw : tokenWellFormed t)
    (hm : '-' ∈ t) :
    ∃ a b, splitOnChar '-' t = [a, b] ∧ (pyNat? a).isSome = true ∧
      (pyNat? b).isSome = true := by
  rcases hw with h | ⟨a, b, rfl, ha, hb⟩
  · exact absurd hm (pyNat?_no_hyphen h)
  · exact ⟨a, b, (splitOnChar_eq_pair_iff '-' _ a b).mpr
      ⟨rfl, pyNat?_no_hyphen ha, pyNat?_no_hyphen hb⟩, ha, hb⟩

theorem cpuSortedGo_none_iff :
    ∀ (toks : List (List Char)) (res : List Nat),
      cpuSortedGo toks res = none ↔ ∃ t ∈ toks, ¬ tokenWellFormed t := by
  intro toks
  induction toks with
  | nil => intro res; simp [cpuSortedGo]
  | cons tok rest ih =>
    intro res
    by_cases hm : '-' ∈ tok
    · rcases hsp : splitOnChar '-' tok with _ | ⟨a, _ | ⟨b, ts⟩⟩
      · exact absurd hsp (splitOnChar_ne_nil '-' tok)
      · -- a single part: the unpacking `start, end = ...` raises
        have hbad : ¬ tokenWellFormed tok := by
          intro hw
          rcases tokenWellFormed_hyphen_elim hw hm with ⟨a1, b1, hsp1, _, _⟩
          rw [hsp] at hsp1
          exact absurd hsp1 (by simp)
        simp only [cpuSortedGo, if_pos hm, hsp]
        constructor
        · intro _; exact ⟨tok, by simp, hbad⟩
        · intro _; trivial
      · cases ts with
        | nil =>
          rcases hpa : pyNat? a with _ | na
          · have hbad : ¬ tokenWellFormed tok := by
              intro hw
              rcases tokenWellFormed_hyphen_elim hw hm with ⟨a1, b1, hsp1, ha1, _⟩
              rw [hsp] at hsp1
              simp only [List.cons.injEq, and_true] at hsp1
              rw [← hsp1.1, hpa] at ha1
              simp at ha1
            simp only [cpuSortedGo, if_pos hm, hsp, hpa]
            constructor
            · intro _; exact ⟨tok, by simp, hbad⟩
            · intro _; trivial
          · rcases hpb : pyNat? b with _ | nb
            · have hbad : ¬ tokenWellFormed tok := by
                intro hw
                rcases tokenWellFormed_hyphen_elim hw hm with ⟨a1, b1, hsp1, _, hb1⟩
                rw [hsp] at hsp1
                simp only [List.cons.injEq, and_true] at hsp1
                rw [← hsp1.2, hpb] at hb1
                simp at hb1
              simp only [cpuSortedGo, if_pos hm, hsp, hpa, hpb]
              constructor
              · intro _; exact ⟨tok, by simp, hbad⟩
              · intro _; trivial
            · have hgood : tokenWellFormed tok := by
                right
                rcases (splitOnChar_eq_pair_iff '-' tok a b).mp hsp with ⟨heq, _, _⟩
                exact ⟨a, b, heq, by simp [hpa], by simp [hpb]⟩
              simp only [cpuSortedGo, if_pos hm, hsp, hpa, hpb]
              rw [ih]
              constructor
              · rintro ⟨t, ht, hbad⟩; exact ⟨t, by simp [ht], hbad⟩
              · rintro ⟨t, ht, hbad⟩
                rcases List.mem_cons.mp ht with h | h
                · subst h; exact absurd hgood hbad
                · exact ⟨t, h, hbad⟩
        | cons u us =>
          -- three or more parts: the unpacking raises
          have hbad : ¬ tokenWellFormed tok := by
            intro hw
            rcases tokenWellFormed_hyphen_elim hw hm with ⟨a1, b1, hsp1, _, _⟩
            rw [hsp] at hsp1
            simp at hsp1
          simp only [cpuSortedGo, if_pos hm, hsp]
          constructor
          · intro _; exact ⟨tok, by simp, hbad⟩
          · intro _; trivial
    · rcases hp : pyNat? tok with _ | n
      · have hbad : ¬ tokenWellFormed tok := by
          intro hw
          rcases hw with h | ⟨a, b, rfl, _, _⟩
          · rw [hp] at h; simp at h
          · exact hm (by simp)
        simp only [cpuSortedGo, if_neg hm, hp]
        constructor
        · intro _; exact ⟨tok, by simp, hbad⟩
        · intro _; trivial
      · have hgood : tokenWellFormed tok := Or.inl (by simp [hp])
        simp only [cpuSortedGo, if_neg hm, hp]
        rw [ih]
        constructor
        · rintro ⟨t, ht, hbad⟩; exact ⟨t, by simp [ht], hbad⟩
        · rintro ⟨t, ht, hbad⟩
          rcases List.mem_cons.mp ht with h | h
          · subst h; exact absurd hgood hbad
          · exact ⟨t, h, hbad⟩

/-- Claim C6 (counterexample): the claim asserts an empty token is silently
skipped, so `decode("0,,1")` would succeed (and `decode("")` would be `[]`);
in fact Python's `int('')` raises `ValueError`, and `cpu_sorted "0,,1"`
fails as a whole. -/
theorem cpu_sorted_empty_token_counterexample :
    cpu_sorted ("0,,1".toList) = none := by decide

/-- Claim C6 (amended): `cpu_sorted` fails exactly when some comma-separated
token (after newline removal) is neither a single integer literal nor two
integer literals joined by one hyphen; the empty token is not an integer
literal and therefore causes failure rather than being skipped. -/
theorem cpu_sorted_none_iff (s : List Char) :
    cpu_sorted s = none ↔
      ∃ t ∈ splitOnChar ',' (s.filter (fun c => c ≠ '\n')), ¬ tokenWellFormed t :=
  cpuSortedGo_none_iff _ []

theorem alistGet_alistSet_self {α : Type} (d : List (String × α)) (k : String) (v : α) :
    alistGet (alistSet d k v) k = some v := by
  induction d with
  | nil => simp [alistGet, alistSet]
  | cons kw rest ih =>
    obtain ⟨k0, w⟩ := kw
    by_cases hk : k0 = k
    · simp [alistSet, hk, alistGet]
    · simp [alistSet, hk, alistGet, ih]

theorem alistGet_alistSet_ne {α : Type} (d : List (String × α)) {k k1 : String} (v : α)
    (h : k1 ≠ k) : alistGet (alistSet d k v) k1 = alistGet d k1 := by
  induction d with
  | nil => simp [alistGet, alistSet, Ne.symm h]
  | cons kw rest ih =>
    obtain ⟨k0, w⟩ := kw
    by_cases hk : k0 = k
    · subst hk
      simp [alistSet, alistGet, Ne.symm h]
    · simp only [alistSet, if_neg hk, alistGet]
      by_cases hk1 : k0 = k1
      · simp [hk1]
      · simp [hk1, ih]

theorem mem_alistSet_self {α : Type} (d : List (String × α)) (k : String) (v : α) :
    (k, v) ∈ alistSet d k v := by
  induction d with
  | nil => simp [alistSet]
  | cons kw rest ih =>
    obtain ⟨k0, w⟩ := kw
    by_cases hk : k0 = k
    · simp [alistSet, hk]
    · simp only [alistSet, if_neg hk, List.mem_cons]
      exact Or.inr ih

/-- Successful `update_attribute` always stores a nonempty list under a
non-reserved name. -/
theorem update_attribute_shape {c : CpuInfo} {p v : String} {c1 : CpuInfo}
    (h : update_attribute c p v = some c1) :
    p ≠ "cpu_id" ∧ p ≠ "isolated" ∧ ∃ l, l ≠ [] ∧ c1 = pySetattr c p (.vList l) := by
  unfold update_attribute at h
  split at h
  · rename_i hres
    refine ⟨hres.1, hres.2, ?_⟩
    split at h
    · exact absurd h (by simp)
    · rename_i w hget
      split at h
      · split at h
        · refine ⟨_, ?_, by simpa using h.symm⟩
          simp
        · exact absurd h (by simp)
      · exact ⟨[v], by simp, by simpa using h.symm⟩
  · exact absurd h (by simp)

/-- Claim C9: the per-CPU attribute table never lets the reserved `cpu_id` /
`isolated` keys be used as roles: `update_attribute` on them raises (and, in
this pure model, returns no new object, so the entry is unchanged); every
successful update leaves `cpu_id` and `isolated` untouched; and the role
enumeration `cpu_usage` never yields a reserved key. -/
theorem update_attribute_reserved_spec :
    (∀ (c : CpuInfo) (v : String),
        update_attribute c "cpu_id" v = none ∧ update_attribute c "isolated" v = none) ∧
      (∀ (c : CpuInfo) (p v : String) (c1 : CpuInfo), update_attribute c p v = some c1 →
        pyGetattr c1 "cpu_id" = pyGetattr c "cpu_id" ∧
          pyGetattr c1 "isolated" = pyGetattr c "isolated") ∧
      ∀ c : CpuInfo, "cpu_id" ∉ cpu_usage c ∧ "isolated" ∉ cpu_usage c := by
  refine ⟨fun c v => ⟨by simp [update_attribute], by simp [update_attribute]⟩, ?_, ?_⟩
  · intro c p v c1 h
    obtain ⟨hp1, hp2, l, _, rfl⟩ := update_attribute_shape h
    exact ⟨alistGet_alistSet_ne c _ (fun hh => hp1 hh.symm),
      alistGet_alistSet_ne c _ (fun hh => hp2 hh.symm)⟩
  · intro c
    constructor <;>
    · intro hmem
      rcases List.mem_map.mp hmem with ⟨pv, hpv, heq⟩
      have := (List.mem_filter.mp hpv).2
      rw [heq] at this
      simp at this

/-- Claim C9 (witness): the reserved-name rejection and the preservation of
`cpu_id` / `isolated` across a successful update, at a freshly created CPU 0
updated on role `TrashCPU`. -/
theorem update_attribute_reserved_spec_witness :
    update_attribute (CpuInfo.init 0) "cpu_id" "A" = none ∧
      pyGetattr ((update_attribute (CpuInfo.init 0) "TrashCPU" "A").getD (CpuInfo.init 0))
          "cpu_id" = pyGetattr (CpuInfo.init 0) "cpu_id" :=
  ⟨(update_attribute_reserved_spec.1 (CpuInfo.init 0) "A").1,
    (update_attribute_reserved_spec.2.1 (CpuInfo.init 0) "TrashCPU" "A" _ (by decide)).1⟩

/-- Claim C8 (counterexample): the claim requires "free" to imply isolated,
but `check_free_bender_cpu` skips the `isolated` attribute entirely: a
freshly created CPU is not isolated yet is reported free. -/
theorem check_free_not_isolated_counterexample :
    check_free_bender_cpu (CpuInfo.init 0) = true ∧
      pyGetattr (CpuInfo.init 0) "isolated" = some (.vBool false) := by
  constructor <;> decide

/-- Claim C8 (amended): `check_free_bender_cpu` is true iff no attribute
outside `isolated` / `cpu_id` / `net_cpu` is truthy — i.e. iff the CPU has
no role assignment other than the network-interface-affinity role `net_cpu`
— and any successful assignment to a role other than `net_cpu` makes the CPU
not free; the `isolated` flag itself is never consulted. -/
theorem check_free_bender_cpu_spec :
    (∀ c : CpuInfo, check_free_bender_cpu c = true ↔
        ∀ pv ∈ c, pyTruthy pv.2 = true →
          pv.1 = "isolated" ∨ pv.1 = "cpu_id" ∨ pv.1 = "net_cpu") ∧
      ∀ (c c1 : CpuInfo) (p v : String), p ≠ "net_cpu" →
        update_attribute c p v = some c1 → check_free_bender_cpu c1 = false := by
  constructor
  · intro c
    rw [check_free_bender_cpu, List.all_eq_true]
    constructor
    · intro h pv hpv htr
      have h2 := h pv hpv
      simp [htr] at h2
      tauto
    · intro h pv hpv
      by_cases htr : pyTruthy pv.2 = true
      · have h2 := h pv hpv htr
        simp [htr]
        tauto
      · have htr2 : pyTruthy pv.2 = false := by
          cases hb : pyTruthy pv.2
          · rfl
          · exact absurd hb htr
        simp [htr2]
  · intro c c1 p v hnet h
    obtain ⟨hp1, hp2, l, hl, rfl⟩ := update_attribute_shape h
    have hmem : (p, AttrVal.vList l) ∈ pySetattr c p (.vList l) :=
      mem_alistSet_self c p (.vList l)
    cases hall : check_free_bender_cpu (pySetattr c p (.vList l)) with
    | false => rfl
    | true =>
      rw [check_free_bender_cpu, List.all_eq_true] at hall
      have := hall _ hmem
      simp [pyTruthy, hl, hp1, hp2, hnet] at this

/-- Claim C8 (witness): assigning role `TrashCPU` to a fresh CPU 0 makes it
not free. -/
theorem check_free_bender_cpu_spec_witness :
    (("TrashCPU" : String) ≠ "net_cpu") ∧
      update_attribute (CpuInfo.init 0) "TrashCPU" "A" =
        some ((update_attribute (CpuInfo.init 0) "TrashCPU" "A").getD (CpuInfo.init 0)) ∧
      check_free_bender_cpu
        ((update_attribute (CpuInfo.init 0) "TrashCPU" "A").getD (CpuInfo.init 0)) = false :=
  ⟨by decide, by decide,
    check_free_bender_cpu_spec.2 (CpuInfo.init 0) _ "TrashCPU" "A" (by decide) (by decide)⟩

/-- Claim C3: a role-assignment request for a CPU id absent from the
registry leaves the registry unchanged and yields exactly the one captured
`doesnt exist` error string, for every role name and value; nothing is
raised (the caller accumulates the returned error list). -/
theorem update_cpus_unknown_cpu (cpus : List CpuInfo) (tok : List Char) (cid : Nat)
    (p v : String) (htok : pyNat? tok = some cid)
    (habs : get_cpu_by_id cpus cid = none) :
    update_cpus cpus [tok] p v = some (cpus, [errMsg p tok]) := by
  simp [update_cpus, update_cpusGo, htok, habs]

/-- Claim C3 (witness): requesting role `TrashCPU` for the absent CPU 5 on a
registry holding only CPU 0. -/
theorem update_cpus_unknown_cpu_witness :
    (pyNat? ("5".toList) = some 5 ∧ get_cpu_by_id [CpuInfo.init 0] 5 = none) ∧
      update_cpus [CpuInfo.init 0] ["5".toList] "TrashCPU" "A" =
        some ([CpuInfo.init 0], [errMsg "TrashCPU" ("5".toList)]) :=
  ⟨⟨by decide, by decide⟩,
    update_cpus_unknown_cpu [CpuInfo.init 0] ("5".toList) 5 "TrashCPU" "A"
      (by decide) (by decide)⟩

/-- Claim C5 (counterexample): the claim requires registry creation to fail
on duplicate ids, but `get_all_cpus` performs no duplicate check: decoding
`"0,0"` succeeds and two entries with `cpu_id = 0` are created. -/
theorem get_all_cpus_duplicate_counterexample :
    get_all_cpus ("0,0".toList) = some [CpuInfo.init 0, CpuInfo.init 0] := by
  decide

/-- Claim C5 (amended): registry creation initializes one entry per id
occurrence of the decoded online-CPU string, each with `isolated = false`
and every role list empty; a collection with repeated ids is not rejected —
it produces one entry per occurrence and no error. -/
theorem get_all_cpus_spec (data : List Char) (ids : List Nat)
    (h : cpu_sorted data = some ids) :
    get_all_cpus data = some (ids.map CpuInfo.init) ∧
      ∀ i : Nat, pyGetattr (CpuInfo.init i) "cpu_id" = some (.vInt i) ∧
        pyGetattr (CpuInfo.init i) "isolated" = some (.vBool false) ∧
        ∀ r ∈ cpu_usage (CpuInfo.init i), pyGetattr (CpuInfo.init i) r = some (.vList []) := by
  refine ⟨by simp [get_all_cpus, h], ?_⟩
  intro i
  refine ⟨by simp [CpuInfo.init, pyGetattr, alistGet], by simp [CpuInfo.init, pyGetattr, alistGet], ?_⟩
  intro r hr
  simp only [cpu_usage, CpuInfo.init, List.filter, List.map] at hr
  simp only [CpuInfo.init, pyGetattr, alistGet]
  fin_cases hr <;> rfl

/-- Claim C5 (witness): creation from the online string `"0-1"`. -/
theorem get_all_cpus_spec_witness :
    cpu_sorted ("0-1".toList) = some [0, 1] ∧
      get_all_cpus ("0-1".toList) = some [CpuInfo.init 0, CpuInfo.init 1] :=
  ⟨by decide, by
    have := (get_all_cpus_spec ("0-1".toList) [0, 1] (by decide)).1
    simpa using this⟩

theorem alistSet_alistSet {α : Type} (d : List (String × α)) (k : String) (a b : α) :
    alistSet (alistSet d k a) k b = alistSet d k b := by
  induction d with
  | nil => simp [alistSet]
  | cons kw rest ih =>
    obtain ⟨k0, w⟩ := kw
    by_cases hk : k0 = k
    · simp [alistSet, hk]
    · simp [alistSet, hk, ih]

theorem alistSet_self {α : Type} (d : List (String × α)) (k : String) (w : α)
    (h : alistGet d k = some w) : alistSet d k w = d := by
  induction d with
  | nil => simp [alistGet] at h
  | cons kw rest ih =>
    obtain ⟨k0, w0⟩ := kw
    by_cases hk : k0 = k
    · subst hk
      simp [alistGet] at h
      subst h
      simp [alistSet]
    · simp only [alistGet, if_neg hk] at h
      simp [alistSet, hk, ih h]

theorem get_cpu_by_id_none_iff (cpus : List CpuInfo) (n : Nat) :
    get_cpu_by_id cpus n = none ↔
      ∀ c ∈ cpus, pyGetattr c "cpu_id" ≠ some (.vInt n) := by
  simp [get_cpu_by_id, List.find?_eq_none]

/-- `update_attribute` on a list-valued role attribute always appends (the
truthy branch appends to a nonempty list; the falsy branch replaces the
empty list by a one-element list, which is the same append). -/
theorem update_attribute_list {c : CpuInfo} {p v : String} {L : List String}
    (hget : pyGetattr c p = some (.vList L)) (hp1 : p ≠ "cpu_id") (hp2 : p ≠ "isolated") :
    update_attribute c p v = some (pySetattr c p (.vList (L ++ [v]))) := by
  unfold update_attribute
  rw [if_pos ⟨hp1, hp2⟩, hget]
  cases L with
  | nil => simp [pyTruthy]
  | cons a L0 => simp [pyTruthy]

theorem roleAppendIfId_getattr_ne {p : String} (v : String) (n : Nat) (c : CpuInfo)
    {key : String} (hkey : key ≠ p) :
    pyGetattr (roleAppendIfId p v n c) key = pyGetattr c key := by
  unfold roleAppendIfId
  split
  · exact alistGet_alistSet_ne c _ hkey
  · rfl

theorem tokMatchesCpu_congr {c1 c : CpuInfo}
    (h : pyGetattr c1 "cpu_id" = pyGetattr c "cpu_id") :
    tokMatchesCpu c1 = tokMatchesCpu c := by
  funext t
  unfold tokMatchesCpu
  cases pyNat? t
  · rfl
  · simp [h]

theorem map_getid_roleAppend {p : String} (v : String) (n : Nat) (cpus : List CpuInfo)
    (hp1 : p ≠ "cpu_id") :
    (cpus.map (roleAppendIfId p v n)).map (fun c => pyGetattr c "cpu_id") =
      cpus.map (fun c => pyGetattr c "cpu_id") := by
  rw [List.map_map]
  exact List.map_congr_left fun c _ =>
    roleAppendIfId_getattr_ne v n c (fun h => hp1 h.symm) |>.symm ▸ rfl

theorem tokAbsent_map_roleAppend {p : String} (v : String) (n : Nat)
    (cpus : List CpuInfo) (hp1 : p ≠ "cpu_id") (t : List Char) :
    tokAbsent (cpus.map (roleAppendIfId p v n)) t = tokAbsent cpus t := by
  unfold tokAbsent
  cases hm : pyNat? t with
  | none => rfl
  | some m =>
    have hiff : get_cpu_by_id (cpus.map (roleAppendIfId p v n)) m = none ↔
        get_cpu_by_id cpus m = none := by
      rw [get_cpu_by_id_none_iff, get_cpu_by_id_none_iff]
      constructor
      · intro h c hc
        have := h _ (List.mem_map_of_mem _ hc)
        rwa [roleAppendIfId_getattr_ne v n c (fun hh => hp1 hh.symm)] at this
      · intro h q hq
        rcases List.mem_map.mp hq with ⟨c, hc, rfl⟩
        rw [roleAppendIfId_getattr_ne v n c (fun hh => hp1 hh.symm)]
        exact h c hc
    show (get_cpu_by_id (cpus.map (roleAppendIfId p v n)) m).isNone =
      (get_cpu_by_id cpus m).isNone
    rcases hA : get_cpu_by_id cpus m with _ | q
    · rw [hiff.mpr hA]
    · rcases hB : get_cpu_by_id (cpus.map (roleAppendIfId p v n)) m with _ | q1
      · rw [hiff.mp hB] at hA; simp at hA
      · simp

/-- A successful `get_cpu_by_id` lets `updateFirstCpu` succeed, and — ids
being distinct — its result is the pointwise `roleAppendIfId` map. -/
theorem updateFirstCpu_map (p v : String) (n : Nat) (hp1 : p ≠ "cpu_id")
    (hp2 : p ≠ "isolated") :
    ∀ (cpus : List CpuInfo) (c0 : CpuInfo),
      (∀ c ∈ cpus, pyGetattr c p = some (.vList (roleListOf c p))) →
      (cpus.map (fun c => pyGetattr c "cpu_id")).Nodup →
      get_cpu_by_id cpus n = some c0 →
      updateFirstCpu p v cpus n = some (cpus.map (roleAppendIfId p v n)) := by
  intro cpus
  induction cpus with
  | nil => intro c0 _ _ hfind; simp [get_cpu_by_id] at hfind
  | cons c cs ih =>
    intro c0 hrole hnd hfind
    by_cases hmatch : pyGetattr c "cpu_id" = some (.vInt n)
    · have hupd : update_attribute c p v =
          some (pySetattr c p (.vList (roleListOf c p ++ [v]))) :=
        update_attribute_list (hrole c (by simp)) hp1 hp2
      have hother : ∀ c1 ∈ cs, pyGetattr c1 "cpu_id" ≠ some (.vInt n) := by
        intro c1 hc1 heq
        have hnd2 := hnd
        simp only [List.map_cons, List.nodup_cons] at hnd2
        have : pyGetattr c "cpu_id" ∈ cs.map (fun c2 => pyGetattr c2 "cpu_id") := by
          rw [hmatch, ← heq]
          exact List.mem_map_of_mem _ hc1
        exact hnd2.1 this
      have hcs : cs.map (roleAppendIfId p v n) = cs := by
        have h1 : cs.map (roleAppendIfId p v n) = cs.map id :=
          List.map_congr_left fun c1 hc1 => by simp [roleAppendIfId, hother c1 hc1]
        simpa using h1
      simp [updateFirstCpu, hmatch, hupd, roleAppendIfId, hcs]
    · have hfind2 : get_cpu_by_id cs n = some c0 := by
        have := hfind
        unfold get_cpu_by_id at this ⊢
        rwa [List.find?_cons_of_neg _ (by simpa using hmatch)] at this
      have hnd2 : (cs.map (fun c2 => pyGetattr c2 "cpu_id")).Nodup := by
        simp only [List.map_cons, List.nodup_cons] at hnd
        exact hnd.2
      have hrec := ih c0 (fun c1 h1 => hrole c1 (by simp [h1])) hnd2 hfind2
      simp [updateFirstCpu, hmatch, hrec, roleAppendIfId]

theorem roleListOf_setattr_self (c : CpuInfo) (p : String) (L : List String) :
    roleListOf (pySetattr c p (.vList L)) p = L := by
  unfold roleListOf pyGetattr pySetattr
  rw [alistGet_alistSet_self]

theorem update_cpusGo_cons_absent {p v : String} {t : List Char} {m : Nat}
    {cpus : List CpuInfo} {rest : List (List Char)} {errs : List String}
    (hm : pyNat? t = some m) (habs : get_cpu_by_id cpus m = none) :
    update_cpusGo p v (t :: rest) cpus errs =
      update_cpusGo p v rest cpus (errs ++ [errMsg p t]) := by
  simp only [update_cpusGo, hm, habs]

theorem update_cpusGo_cons_present {p v : String} {t : List Char} {m : Nat}
    {cpus cpus1 : List CpuInfo} {c0 : CpuInfo} {rest : List (List Char)}
    {errs : List String}
    (hm : pyNat? t = some m) (hpres : get_cpu_by_id cpus m = some c0)
    (hupd : updateFirstCpu p v cpus m = some cpus1) :
    update_cpusGo p v (t :: rest) cpus errs = update_cpusGo p v rest cpus1 errs := by
  simp only [update_cpusGo, hm, hpres, hupd]

theorem update_cpusGo_batch (p v : String) (hp1 : p ≠ "cpu_id") (hp2 : p ≠ "isolated") :
    ∀ (cores : List (List Char)) (cpus : List CpuInfo) (errs : List String),
      (∀ c ∈ cpus, pyGetattr c p = some (.vList (roleListOf c p))) →
      (∀ t ∈ cores, (pyNat? t).isSome = true) →
      (cpus.map (fun c => pyGetattr c "cpu_id")).Nodup →
      update_cpusGo p v cores cpus errs =
        some (cpus.map (fun c => pySetattr c p
            (.vList (roleListOf c p ++ List.replicate (cores.countP (tokMatchesCpu c)) v))),
          errs ++ (cores.filter (tokAbsent cpus)).map (errMsg p)) := by
  intro cores
  induction cores with
  | nil =>
    intro cpus errs hrole _ _
    have hmap : cpus.map (fun c => pySetattr c p
        (.vList (roleListOf c p ++
          List.replicate (List.countP (tokMatchesCpu c) []) v))) = cpus := by
      have h1 : ∀ c ∈ cpus, pySetattr c p
          (.vList (roleListOf c p ++
            List.replicate (List.countP (tokMatchesCpu c) []) v)) = id c := by
        intro c hc
        simp only [List.countP_nil, List.replicate_zero, List.append_nil, id]
        exact alistSet_self c p _ (hrole c hc)
      rw [List.map_congr_left h1, List.map_id]
    simp only [update_cpusGo, hmap, List.filter_nil, List.map_nil, List.append_nil]
  | cons t rest ih =>
    intro cpus errs hrole hcores hnd
    rcases hm : pyNat? t with _ | m
    · have := hcores t (by simp)
      rw [hm] at this
      simp at this
    rcases habs : get_cpu_by_id cpus m with _ | c0
    · -- id absent: one error string, registry untouched
      rw [update_cpusGo_cons_absent hm habs,
        ih cpus (errs ++ [errMsg p t]) hrole (fun u hu => hcores u (by simp [hu])) hnd]
      have hcnt : ∀ c ∈ cpus, tokMatchesCpu c t = false := by
        intro c hc
        unfold tokMatchesCpu
        rw [hm]
        simp [(get_cpu_by_id_none_iff cpus m).mp habs c hc]
      have hMap : cpus.map (fun c => pySetattr c p
            (.vList (roleListOf c p ++ List.replicate (rest.countP (tokMatchesCpu c)) v)))
          = cpus.map (fun c => pySetattr c p
            (.vList (roleListOf c p ++
              List.replicate ((t :: rest).countP (tokMatchesCpu c)) v))) :=
        List.map_congr_left fun c hc => by rw [List.countP_cons, hcnt c hc]; simp
      have hTA : tokAbsent cpus t = true := by
        unfold tokAbsent
        rw [hm]
        show (get_cpu_by_id cpus m).isNone = true
        rw [habs]
        rfl
      have hErrs : (errs ++ [errMsg p t]) ++ (rest.filter (tokAbsent cpus)).map (errMsg p)
          = errs ++ (((t :: rest).filter (tokAbsent cpus)).map (errMsg p)) := by
        simp [List.filter_cons, hTA]
      rw [hMap, hErrs]
    · -- id present: append `v` to the unique matching entry, recurse
      have hupd := updateFirstCpu_map p v m hp1 hp2 cpus c0 hrole hnd habs
      rw [update_cpusGo_cons_present hm habs hupd]
      have hrole1 : ∀ c1 ∈ cpus.map (roleAppendIfId p v m),
          pyGetattr c1 p = some (.vList (roleListOf c1 p)) := by
        intro c1 hc1
        rcases List.mem_map.mp hc1 with ⟨c, hc, rfl⟩
        unfold roleAppendIfId
        split
        · rw [roleListOf_setattr_self]
          exact alistGet_alistSet_self c p (AttrVal.vList (roleListOf c p ++ [v]))
        · exact hrole c hc
      have hnd1 : ((cpus.map (roleAppendIfId p v m)).map
          (fun c => pyGetattr c "cpu_id")).Nodup := by
        rw [map_getid_roleAppend v m cpus hp1]
        exact hnd
      rw [ih (cpus.map (roleAppendIfId p v m)) errs hrole1
        (fun u hu => hcores u (by simp [hu])) hnd1]
      have hMap : (cpus.map (roleAppendIfId p v m)).map (fun c => pySetattr c p
            (.vList (roleListOf c p ++ List.replicate (rest.countP (tokMatchesCpu c)) v)))
          = cpus.map (fun c => pySetattr c p
            (.vList (roleListOf c p ++
              List.replicate ((t :: rest).countP (tokMatchesCpu c)) v))) := by
        rw [List.map_map]
        refine List.map_congr_left fun c hc => ?_
        simp only [Function.comp_apply]
        have hgid : pyGetattr (roleAppendIfId p v m c) "cpu_id" = pyGetattr c "cpu_id" :=
          roleAppendIfId_getattr_ne v m c (fun hh => hp1 hh.symm)
        have htm : tokMatchesCpu (roleAppendIfId p v m c) = tokMatchesCpu c :=
          tokMatchesCpu_congr hgid
        by_cases hcm : pyGetattr c "cpu_id" = some (.vInt m)
        · have e1 : roleAppendIfId p v m c
              = pySetattr c p (.vList (roleListOf c p ++ [v])) := by
            simp [roleAppendIfId, hcm]
          have hrl : roleListOf (roleAppendIfId p v m c) p = roleListOf c p ++ [v] := by
            rw [e1, roleListOf_setattr_self]
          have htmt : tokMatchesCpu c t = true := by
            unfold tokMatchesCpu
            rw [hm]
            simp [hcm]
          rw [htm, hrl, e1]
          show alistSet (alistSet c p (.vList (roleListOf c p ++ [v]))) p _ = _
          rw [alistSet_alistSet]
          show alistSet c p _ = alistSet c p _
          congr 2
          rw [List.countP_cons, htmt]
          simp [List.replicate_succ]
        · have e1 : roleAppendIfId p v m c = c := by
            simp [roleAppendIfId, hcm]
          have htmt : tokMatchesCpu c t = false := by
            unfold tokMatchesCpu
            rw [hm]
            simp [hcm]
          rw [htm, e1, List.countP_cons, htmt]
          simp
      have hFil : rest.filter (tokAbsent (cpus.map (roleAppendIfId p v m)))
          = rest.filter (tokAbsent cpus) :=
        List.filter_congr fun u hu => tokAbsent_map_roleAppend v m cpus hp1 u
      have hTA : tokAbsent cpus t = false := by
        unfold tokAbsent
        rw [hm]
        show (get_cpu_by_id cpus m).isNone = false
        rw [habs]
        rfl
      have hFil2 : (t :: rest).filter (tokAbsent cpus) = rest.filter (tokAbsent cpus) := by
        simp [List.filter_cons, hTA]
      rw [hMap, hFil, hFil2]

/-- Claim C10: a batch `update_cpus` call over a token list of CPU ids mixing
present and absent ids (role name valid, registry ids distinct) is not
atomic and never fails as a whole: it returns the registry in which every
present id got the value appended to its role list once per occurrence,
together with exactly one error string per absent-id token, in input
order. -/
theorem update_cpus_batch (cpus : List CpuInfo) (cores : List (List Char)) (p v : String)
    (hp1 : p ≠ "cpu_id") (hp2 : p ≠ "isolated")
    (hrole : ∀ c ∈ cpus, pyGetattr c p = some (.vList (roleListOf c p)))
    (hcores : ∀ t ∈ cores, (pyNat? t).isSome = true)
    (hids : (cpus.map (fun c => pyGetattr c "cpu_id")).Nodup) :
    update_cpus cpus cores p v =
      some (cpus.map (fun c => pySetattr c p
          (.vList (roleListOf c p ++ List.replicate (cores.countP (tokMatchesCpu c)) v))),
        (cores.filter (tokAbsent cpus)).map (errMsg p)) := by
  have h := update_cpusGo_batch p v hp1 hp2 cores cpus [] hrole hcores hids
  simpa [update_cpus] using h

/-- Claim C10 (witness): ids `0` (present) and `5` (absent) against a
two-CPU registry: CPU 0 gains the role value, CPU 1 is untouched, and the
one absent id yields the one error string. -/
theorem update_cpus_batch_witness :
    (("TrashCPU" : String) ≠ "cpu_id" ∧ ("TrashCPU" : String) ≠ "isolated" ∧
        (∀ c ∈ [CpuInfo.init 0, CpuInfo.init 1],
          pyGetattr c "TrashCPU" = some (.vList (roleListOf c "TrashCPU"))) ∧
        (∀ t ∈ [("0".toList), ("5".toList)], (pyNat? t).isSome = true) ∧
        ([CpuInfo.init 0, CpuInfo.init 1].map (fun c => pyGetattr c "cpu_id")).Nodup) ∧
      update_cpus [CpuInfo.init 0, CpuInfo.init 1] [("0".toList), ("5".toList)]
          "TrashCPU" "A" =
        some ([CpuInfo.init 0, CpuInfo.init 1].map (fun c => pySetattr c "TrashCPU"
            (.vList (roleListOf c "TrashCPU" ++
              List.replicate
                (List.countP (tokMatchesCpu c) [("0".toList), ("5".toList)]) "A"))),
          ([("0".toList), ("5".toList)].filter
              (tokAbsent [CpuInfo.init 0, CpuInfo.init 1])).map (errMsg "TrashCPU")) :=
  ⟨⟨by decide, by decide, by decide, by decide, by decide⟩,
    update_cpus_batch [CpuInfo.init 0, CpuInfo.init 1] [("0".toList), ("5".toList)]
      "TrashCPU" "A" (by decide) (by decide) (by decide) (by decide) (by decide)⟩

/-- Claim C1 (counterexample): with the three isolated sets pairwise
distinct, the claim's rule — one description per mismatching pair — would
produce three descriptions, but the code emits only two: it never compares
the bootloader and cmdline sets with each other. -/
theorem isolation_pairwise_counterexample :
    (check_isolation_parameters_descs c1PairwiseFacts).countP isolMismatchDesc = 2 ∧
      spec_pairwise_isolated_mismatch_count (some [2, 3]) (some [2, 4]) (some [2, 5]) = 3 := by
  constructor <;> decide

/-- Claim C1 (amended): the kernel-reported isolated list is compared (as a
decoded list) against the bootloader `isolcpus` and against the cmdline
`isolcpus` — two comparisons, one description per failing one; the
bootloader/cmdline pair is never compared.  On the example (kernel `{2,3}`,
bootloader `{2,3}`, cmdline `{2,4}`) exactly one mismatch description is
produced, and it is the kernel/cmdline one. -/
theorem isolation_mismatch_spec :
    (∀ f : SysFacts,
        (check_isolation_parameters_descs f).countP isolMismatchDesc =
          (if isolEq f.system (pyGet f.grub "isolcpus") then 0 else 1) +
            (if isolEq f.system (pyGet f.cmdline "isolcpus") then 0 else 1)) ∧
      check_isolation_parameters_descs c1ExampleFacts = [.isolNotEqCmdline] := by
  refine ⟨?_, by decide⟩
  intro f
  have seg0 : ∀ (b : Prop) (inst : Decidable b) (d : VerdictDesc), isolMismatchDesc d = false →
      List.countP isolMismatchDesc (if b then [d] else []) = 0 := by
    intro b inst d hd
    split <;> simp [hd]
  have seg1 : ∀ (b : Prop) (inst : Decidable b) (d : VerdictDesc), isolMismatchDesc d = true →
      List.countP isolMismatchDesc (if b then [d] else []) = if b then 1 else 0 := by
    intro b inst d hd
    split <;> simp [hd]
  unfold check_isolation_parameters_descs
  cases hc1 : check_parameters f.cmdline f.req_param <;>
    cases hc2 : check_parameters f.grub f.req_param <;>
    · simp only [List.countP_append]
      rw [seg0 _ _ (VerdictDesc.invalidCpus f.cpu_error) (by simp [isolMismatchDesc]),
        seg1 _ _ VerdictDesc.isolNotEqGrub (by simp [isolMismatchDesc]),
        seg1 _ _ VerdictDesc.isolNotEqCmdline (by simp [isolMismatchDesc]),
        seg0 _ _ VerdictDesc.noIsolatedCpus (by simp [isolMismatchDesc]),
        seg0 _ _ VerdictDesc.htCountMismatch (by simp [isolMismatchDesc]),
        seg0 _ _ VerdictDesc.htActive (by simp [isolMismatchDesc])]
      by_cases hg : isolEq f.system (pyGet f.grub "isolcpus") = true <;>
        by_cases hc : isolEq f.system (pyGet f.cmdline "isolcpus") = true <;>
          simp [hg, hc, isolMismatchDesc]

/-- Claim C7 (counterexample): with two `TrashCPU` elements the claim
predicts zero assignments, but `root.find` returns the first match and its
`Cores` list is assigned: CPU 0 gains the role (the registry changes) while
the second element is ignored; the error list stays empty. -/
theorem bender_ambiguous_find_counterexample :
    get_cpu_info_bender [CpuInfo.init 0, CpuInfo.init 1] c7FindTree "I" =
        some ([pySetattr (CpuInfo.init 0) "TrashCPU" (.vList ["I"]), CpuInfo.init 1], []) ∧
      pySetattr (CpuInfo.init 0) "TrashCPU" (.vList ["I"]) ≠ CpuInfo.init 0 := by
  constructor <;> decide

/-- Claim C7 (amended): for the five guarded roles (`UdpSendCores`,
`UdpReceiveCores`, `ClickHouseCores`, `Kafka`, `ServicesCPU`) a lookup path
matching any number of nodes other than exactly one — zero or several — is
skipped outright: no role assignment and no error entry, ambiguity behaving
exactly like absence.  The four `find`-based roles and the `CPUAlias` blocks
are not guarded: `find` acts on the first of several matches and the alias
loop acts on all of them. -/
theorem benderGuarded_ambiguous_skip (root : XmlNode) (inst : String)
    (segs : List String) (pname : String) (rest : List (List String × String))
    (cpus : List CpuInfo) (errs : List String)
    (h : (xpathDesc root segs).length ≠ 1) :
    benderGuardedLoop root inst ((segs, pname) :: rest) cpus errs =
      benderGuardedLoop root inst rest cpus errs := by
  rcases hx : xpathDesc root segs with _ | ⟨el, _ | ⟨el2, els⟩⟩
  · simp [benderGuardedLoop, hx]
  · rw [hx] at h
    simp at h
  · simp [benderGuardedLoop, hx]

/-- Claim C7 (witness): two `ServicesCPU` matches make the guarded block a
no-op on a one-CPU registry. -/
theorem benderGuarded_ambiguous_skip_witness :
    (xpathDesc c7GuardedTree ["ServicesCPU"]).length ≠ 1 ∧
      benderGuardedLoop c7GuardedTree "I" [(["ServicesCPU"], "ServicesCPU")]
          [CpuInfo.init 0] [] =
        benderGuardedLoop c7GuardedTree "I" [] [CpuInfo.init 0] [] :=
  ⟨by decide,
    benderGuarded_ambiguous_skip c7GuardedTree "I" ["ServicesCPU"] "ServicesCPU" []
      [CpuInfo.init 0] [] (by decide)⟩

example : cpu_sorted ("0,1,2-5,111".toList) = some [0, 1, 2, 3, 4, 5, 111] := by decide

example : convert_to_ranges [0, 1, 2, 3, 4, 5, 111] = "0-5,111".toList := by decide

example : cpu_sorted ("".toList) = none := by decide

example : convert_to_ranges [] = "".toList := by decide

example : cpu_sorted ("0,,1".toList) = none := by decide

example : cpu_sorted ("5-3".toList) = some [] := by decide

example : cpu_sorted ("1-2-3".toList) = none := by decide

example : cpu_sorted ("+7".toList) = some [7] := by decide
